import Mathlib

/-!
Verification of the condition evaluation engine of the image structure-test
package (pkg/structure/structure.go and pkg/structure/env.go).

Modelling conventions:
* Go strings are lists of characters (`Str`), byte slices are lists of
  naturals (`Bytes`).
* The image handle is modelled by the data the checks consume: the raw
  `KEY=VALUE` config env list and the flattened tar filesystem index
  (entry name, type, mode, header size, content), as built by the layer
  materializer and tarfs.  Fetching layers, spooling to a temp file and
  building the index are assumed to succeed; their I/O failures are the
  fatal-to-evaluation errors outside this model.  `openErrs` models paths
  whose `Open` fails with an error other than not-found.
* `errors.Join` over violation errors is modelled by list concatenation;
  the empty list is the nil error.  Each distinct `fmt.Errorf` format
  string is one constructor of `Violation`.
* The Go regexp engine is external to this repository, so the compiled
  `regexp.MustCompile(re).Match` call is abstracted as a `Matcher`
  parameter; theorems hold for every matcher.
* A nil-pointer dereference (nil `fs.FileInfo` after a failed `Stat`, nil
  `*os.FileMode` deref) panics in Go; a check that panics is modelled as
  returning `none` instead of `some` violation list.
* Go map iteration order is unspecified; `Want` maps are modelled as
  association lists and the per-entry theorems are stated via membership.
-/

namespace OCIStructure

/-- Go strings, modelled as lists of characters. -/
abbrev Str := List Char

/-- Byte sequences (Go `[]byte`), modelled as lists of naturals. -/
abbrev Bytes := List Nat

/-- File type of a tar entry: the file-type bits of the Go `os.FileMode`
(`fs.ModeDir`, `fs.ModeSymlink`, or none for a regular file). -/
inductive FTy where
  | file
  | dir
  | symlink
deriving DecidableEq

/-- One entry of the tar-backed filesystem index (tarfs): name without the
leading slash, type, mode bits, header size as reported by `Stat().Size()`,
and the readable content bytes. -/
structure Entry where
  name : Str
  ty : FTy
  mode : Nat
  size : Nat
  content : Bytes
deriving DecidableEq

/-- The resolved image as consumed by the checks: `cf.Config.Env` (raw
`KEY=VALUE` strings, order preserved, duplicates allowed) and the flattened
tarfs index.  `openErrs` lists paths whose `Open` fails with an error other
than `fs.ErrNotExist`, together with the error text. -/
structure Image where
  configEnv : List Str
  fs : List Entry
  openErrs : List (Str × Str)
deriving DecidableEq

/-- One violation per `fmt.Errorf` format string used by the checks. -/
inductive Violation where
  | envMismatch (name want got : Str)
  | envPathAudit (name value comp : Str)
  | fileNotFound (path : Str)
  | fileOpenErr (path msg : Str)
  | fileTooLarge (path : Str) (maxBytes : Nat)
  | fileBinary (path : Str)
  | fileRegexMismatch (path regex : Str) (got : Bytes)
  | fileModeMismatch (path : Str) (want got : Nat)
  | dirModeMismatch (path : Str) (want got : Nat)
  | permBlocked (path : Str) (block got : Nat)
  | walkErr (path : Str)
deriving DecidableEq

/-- Go `os.ModeSetuid` (bit 23 of `os.FileMode`). -/
def ModeSetuid : Nat := 2 ^ 23

/-- Go `os.ModeSetgid` (bit 22 of `os.FileMode`). -/
def ModeSetgid : Nat := 2 ^ 22

/-- Go `os.ModeSticky` (bit 20 of `os.FileMode`). -/
def ModeSticky : Nat := 2 ^ 20

/-- `permissionMask = 0o777 | os.ModeSetuid | os.ModeSetgid | os.ModeSticky`:
permission bits plus setuid/setgid/sticky, excluding file-type bits. -/
def permissionMask : Nat := 0o777 ||| ModeSetuid ||| ModeSetgid ||| ModeSticky

/-- `maxRegexFileSize = 1 * 1024 * 1024` (1 MiB). -/
def maxRegexFileSize : Nat := 1 * 1024 * 1024

/-- `strings.TrimPrefix(path, "/")`: drop one leading slash if present. -/
def trimSlash : Str → Str
  | '/' :: rest => rest
  | s => s

/-- `strings.HasPrefix(p, "/")`. -/
def startsSlash : Str → Bool
  | '/' :: _ => true
  | _ => false

/-- `strings.Cut(s, "=")`: the part before the first `=` and the part after
it; when there is no `=` the whole string is the first component and the
second is empty (the found flag is discarded by the caller). -/
def cutEq : Str → Str × Str
  | [] => ([], [])
  | c :: rest =>
    if c = '=' then ([], rest)
    else
      let r := cutEq rest
      (c :: r.1, r.2)

/-- `strings.SplitSeq(s, sep)` for the one-character separators used by the
env auditor.  Splitting the empty string yields one empty component. -/
def splitChar (sep : Char) : Str → List Str
  | [] => [[]]
  | c :: rest =>
    match splitChar sep rest with
    | [] => [[]]
    | h :: t => if c = sep then [] :: h :: t else (c :: h) :: t

/-- `splitEnvs` builds the name-to-value map by inserting each entry in
order (a later entry overwrites an earlier one with the same name), and a
Go map lookup of an absent key returns the zero value, the empty string;
both are modelled at once as a total function from key to value. -/
def splitEnvs (envs : List Str) (k : Str) : Str :=
  envs.foldl (fun acc s => if (cutEq s).1 = k then (cutEq s).2 else acc) []

/-- The `verifyEnv` table from env.go: the PATH-like variable names with the
list separator of each (a semicolon for the two LUA variables, a colon for
the rest). -/
def verifyEnvTable : List (Str × Char) := [
  ( "CDC_AGENT_PATH".toList, ':'),
  ( "CRI_CONFIG_PATH".toList, ':'),
  ( "GATUS_CONFIG_PATH".toList, ':'),
  ( "GCONV_PATH".toList, ':'),
  ( "GEM_PATH".toList, ':'),
  ( "GETCONF_DIR".toList, ':'),
  ( "GOPATH".toList, ':'),
  ( "JAVA_HOME".toList, ':'),
  ( "KO_DATA_PATH".toList, ':'),
  ( "LD_LIBRARY_PATH".toList, ':'),
  ( "LD_ORIGIN_PATH".toList, ':'),
  ( "LD_PRELOAD".toList, ':'),
  ( "LIBRARY_PATH".toList, ':'),
  ( "LOCPATH".toList, ':'),
  ( "LUA_CPATH".toList, ';'),
  ( "LUA_PATH".toList, ';'),
  ( "MAAC_PATH".toList, ':'),
  ( "MCAC_PATH".toList, ':'),
  ( "NKEYS_PATH".toList, ':'),
  ( "NIS_PATH".toList, ':'),
  ( "NLSPATH".toList, ':'),
  ( "OPENSEARCH_PATH_CONF".toList, ':'),
  ( "PATH".toList, ':'),
  ( "PERLLIB".toList, ':'),
  ( "PYTHONPATH".toList, ':'),
  ( "RESOLV_HOST_CONF".toList, ':'),
  ( "TMPDIR".toList, ':'),
  ( "TZDIR".toList, ':'),
  ( "ZAP_PATH".toList, ':')]

/-- Lookup in the `verifyEnv` map: the separator of a known PATH-like
variable name, or `none`. -/
def verifyEnv (k : Str) : Option Char :=
  (verifyEnvTable.find? (fun kv => kv.1 == k)).map (fun kv => kv.2)

/-- `EnvCondition` with its wanted name-to-value map. -/
structure EnvCondition where
  Want : List (Str × Str)
deriving DecidableEq

/-- `EnvCondition.Check`: parse the config env, then for each wanted pair
record a mismatch violation when the actual value differs, and, for a name
in the `verifyEnv` table, audit every separator-split component of the
wanted value, recording a violation for a component that is not absolute or
is the literal dollar reference to the variable itself. -/
def EnvCondition.Check (e : EnvCondition) (i : Image) : List Violation :=
  (e.Want.map (fun kv =>
    (if splitEnvs i.configEnv kv.1 ≠ kv.2 then
      [Violation.envMismatch kv.1 kv.2 (splitEnvs i.configEnv kv.1)]
    else [])
    ++ (match verifyEnv kv.1 with
        | some sep =>
          (splitChar sep kv.2).filterMap (fun p =>
            if startsSlash p = false ∨ p = '$' :: kv.1 then
              some (Violation.envPathAudit kv.1 kv.2 p)
            else none)
        | none => []))).flatten

/-- Result of `fsys.Open`: the entry, a not-found error, or another error. -/
inductive OpenResult where
  | ok (e : Entry)
  | notFound
  | err (msg : Str)
deriving DecidableEq

/-- `fsys.Stat(name)`: the index entry for the name, if any. -/
def statFS (i : Image) (name : Str) : Option Entry :=
  i.fs.find? (fun e => e.name == name)

/-- `fsys.Open(name)`: an injected non-not-found open error when the name is
in `openErrs`, otherwise the entry or not-found. -/
def openFS (i : Image) (name : Str) : OpenResult :=
  match i.openErrs.find? (fun oe => oe.1 == name) with
  | some oe => OpenResult.err oe.2
  | none =>
    match statFS i name with
    | some e => OpenResult.ok e
    | none => OpenResult.notFound

/-- `bytes.Contains(bs, []byte{0})`. -/
def containsNull (bs : Bytes) : Bool :=
  bs.any (fun b => b == 0)

/-- The compiled-regex match `regexp.MustCompile(re).Match(got)`, abstracted
as a parameter (the RE2 engine is outside this repository). -/
abbrev Matcher := Str → Bytes → Bool

/-- `File` spec of a `FilesCondition` entry: `Optional bool`,
`Mode *os.FileMode` (a pointer, so optional), `Regex string` (the empty
string means no content check). -/
structure File where
  Optional : Bool
  Mode : Option Nat
  Regex : Str
deriving DecidableEq

/-- The mode part of `FilesCondition.Check` for one opened entry: when
`spec.Mode` is set, mask got and want with `permissionMask` and record a
violation on mismatch (the `Stat` of an already opened tarfs file is
assumed to succeed). -/
def fileModeCheck (path : Str) (f : File) (e : Entry) : List Violation :=
  match f.Mode with
  | none => []
  | some md =>
    if e.mode &&& permissionMask ≠ md &&& permissionMask then
      [Violation.fileModeMismatch path (md &&& permissionMask)
        (e.mode &&& permissionMask)]
    else []

/-- `FilesCondition.Check` for one wanted `(path, spec)` pair: open the
path (leading slash stripped); not-found is skipped silently when optional
and is one not-found violation otherwise; another open error is one opening
violation.  With a non-empty regex, a header size above `maxRegexFileSize`
records the too-large violation and `continue`s (skipping everything else
for this entry, the mode check included); otherwise the content is read up
to the ceiling, a null byte in its first 8192 bytes records the
binary-data violation and `continue`s, and otherwise a failed match records
the regex violation and the check falls through to the mode comparison. -/
def FilesCondition.checkOne (m : Matcher) (i : Image) (path : Str) (f : File) :
    List Violation :=
  match openFS i (trimSlash path) with
  | OpenResult.notFound => if f.Optional then [] else [Violation.fileNotFound path]
  | OpenResult.err msg => [Violation.fileOpenErr path msg]
  | OpenResult.ok e =>
    if f.Regex ≠ [] then
      if e.size > maxRegexFileSize then
        [Violation.fileTooLarge path maxRegexFileSize]
      else
        let got := e.content.take maxRegexFileSize
        if containsNull (got.take 8192) then
          [Violation.fileBinary path]
        else
          (if m f.Regex got then [] else [Violation.fileRegexMismatch path f.Regex got])
          ++ fileModeCheck path f e
    else fileModeCheck path f e

/-- `FilesCondition` with its wanted path-to-spec map. -/
structure FilesCondition where
  Want : List (Str × File)
deriving DecidableEq

/-- `FilesCondition.Check`: check every wanted pair and join the errors. -/
def FilesCondition.Check (m : Matcher) (f : FilesCondition) (i : Image) :
    List Violation :=
  (f.Want.map (fun pf => FilesCondition.checkOne m i pf.1 pf.2)).flatten

/-- `Dir` spec of a `DirsCondition` entry. -/
structure Dir where
  FilesOnly : Bool
  Mode : Option Nat
  Recursive : Bool
deriving DecidableEq

/-- The entries visited by `fs.WalkDir` rooted at `root`: the root entry
itself and every indexed entry strictly below it (visit order is modelled
as index order). -/
def subtreeEntries (i : Image) (root : Str) : List Entry :=
  i.fs.filter (fun e => e.name == root || (root ++ [ '/' ]).isPrefixOf e.name)

/-- Whether the walk root exists in the index (`fs.WalkDir` reports a stat
error for a missing root, which the callback returns, aborting the walk). -/
def rootExists (i : Image) (root : Str) : Bool :=
  (statFS i root).isSome

/-- The recursive walk of `DirsCondition.Check`: skip symlinks, skip
directories when `FilesOnly`, dereference `*dir.Mode` per visited entry
(`none` models the nil-pointer panic), and record a mode-mismatch violation
when the masked modes differ. -/
def walkDirMode (mode? : Option Nat) (filesOnly : Bool) :
    List Entry → Option (List Violation)
  | [] => some []
  | e :: rest =>
    if e.ty = FTy.symlink then walkDirMode mode? filesOnly rest
    else if filesOnly = true ∧ e.ty = FTy.dir then walkDirMode mode? filesOnly rest
    else
      match mode? with
      | none => none
      | some md =>
        (walkDirMode mode? filesOnly rest).map (fun vs =>
          (if e.mode &&& permissionMask ≠ md &&& permissionMask then
            [Violation.fileModeMismatch e.name (md &&& permissionMask)
              (e.mode &&& permissionMask)]
          else []) ++ vs)

/-- `DirsCondition.Check` for one wanted `(path, spec)` pair.  In the
non-recursive branch the code stats the name, appends the stat error but
then dereferences the nil `fs.FileInfo` (modelled `none`), dereferences
`*dir.Mode` (nil modelled `none`), and records a mode-mismatch violation
only when the entry is a directory with differing masked mode; a
non-directory entry records nothing.  The recursive branch walks the
subtree; a missing root makes the walk return its stat error, which is
appended as a violation. -/
def DirsCondition.checkOne (i : Image) (path : Str) (dir : Dir) :
    Option (List Violation) :=
  let name := trimSlash path
  if dir.Recursive = false then
    match statFS i name, dir.Mode with
    | none, _ => none
    | some _, none => none
    | some fi, some md =>
      let got := fi.mode &&& permissionMask
      let want := md &&& permissionMask
      some (if fi.ty = FTy.dir ∧ got ≠ want then
        [Violation.dirModeMismatch path want got]
      else [])
  else
    if rootExists i name then walkDirMode dir.Mode dir.FilesOnly (subtreeEntries i name)
    else some [Violation.walkErr name]

/-- `DirsCondition` with its wanted path-to-spec map. -/
structure DirsCondition where
  Want : List (Str × Dir)
deriving DecidableEq

/-- Join per-entry results, a panic (`none`) anywhere aborting the whole
check. -/
def joinChecks : List (Option (List Violation)) → Option (List Violation)
  | [] => some []
  | o :: rest =>
    match o, joinChecks rest with
    | some l, some ls => some (l ++ ls)
    | _, _ => none

/-- `DirsCondition.Check`: check every wanted pair and join the errors. -/
def DirsCondition.Check (d : DirsCondition) (i : Image) : Option (List Violation) :=
  joinChecks (d.Want.map (fun pd => DirsCondition.checkOne i pd.1 pd.2))

/-- `Permission` spec of a `PermissionsCondition` entry: the blocked mode
(`Block *os.FileMode`, a pointer) and the override path list. -/
structure Permission where
  Block : Option Nat
  Override : List Str
deriving DecidableEq

/-- `hasOverride(filePath, overrides)`: for each override, strip one leading
slash, then the path is covered when it has the override as a prefix and is
the override itself or continues with a slash. -/
def hasOverride (filePath : Str) (overrides : List Str) : Bool :=
  overrides.any (fun o =>
    let name := trimSlash o
    name.isPrefixOf filePath &&
      (filePath == name || (name ++ [ '/' ]).isPrefixOf filePath))

/-- The walk of `PermissionsCondition.Check`: skip symlinks, dereference
`*perm.Block` per visited entry (`none` models the nil-pointer panic), and
record a blocked-permission violation when the masked mode equals the
masked block and no override covers the walk path. -/
def walkPerm (block? : Option Nat) (ovr : List Str) :
    List Entry → Option (List Violation)
  | [] => some []
  | e :: rest =>
    if e.ty = FTy.symlink then walkPerm block? ovr rest
    else
      match block? with
      | none => none
      | some b =>
        (walkPerm block? ovr rest).map (fun vs =>
          (if e.mode &&& permissionMask = b &&& permissionMask ∧
              hasOverride e.name ovr = false then
            [Violation.permBlocked e.name (b &&& permissionMask)
              (e.mode &&& permissionMask)]
          else []) ++ vs)

/-- `PermissionsCondition.Check` for one wanted `(path, spec)` pair: walk
the subtree rooted at the name (leading slash stripped); a missing root
makes the walk return its stat error, which is appended as a violation. -/
def PermissionsCondition.checkOne (i : Image) (path : Str) (perm : Permission) :
    Option (List Violation) :=
  let name := trimSlash path
  if rootExists i name then walkPerm perm.Block perm.Override (subtreeEntries i name)
  else some [Violation.walkErr name]

/-- `PermissionsCondition` with its wanted path-to-spec map. -/
structure PermissionsCondition where
  Want : List (Str × Permission)
deriving DecidableEq

/-- `PermissionsCondition.Check`: check every wanted pair, joining errors. -/
def PermissionsCondition.Check (p : PermissionsCondition) (i : Image) :
    Option (List Violation) :=
  joinChecks (p.Want.map (fun pp => PermissionsCondition.checkOne i pp.1 pp.2))

/-- The closed set of condition kinds implementing the `Condition`
interface. -/
inductive Condition where
  | env (e : EnvCondition)
  | files (f : FilesCondition)
  | dirs (d : DirsCondition)
  | perms (p : PermissionsCondition)
deriving DecidableEq

/-- Dispatch of the `Check` method over the condition kinds. -/
def Condition.Check (m : Matcher) : Condition → Image → Option (List Violation)
  | Condition.env e, i => some (EnvCondition.Check e i)
  | Condition.files f, i => some (FilesCondition.Check m f i)
  | Condition.dirs d, i => DirsCondition.Check d i
  | Condition.perms p, i => PermissionsCondition.Check p i

/-- `Conditions.Check`: run every condition's `Check` and
`errors.Join` the results (a panic anywhere aborts everything). -/
def Conditions.Check (m : Matcher) (cs : List Condition) (i : Image) :
    Option (List Violation) :=
  joinChecks (cs.map (fun c => Condition.Check m c i))

/-! Concrete fixtures used by the witness and counterexample theorems. -/

/-- A matcher accepting everything (stands in for a concrete regex). -/
def matchAll : Matcher := fun _ _ => true

/-- An image with no env, no filesystem entries, no open errors. -/
def imgEmpty : Image := { configEnv := [], fs := [], openErrs := [] }

def pathAbsent : Str := "/absent".toList

def fileOpt : File := { Optional := true, Mode := none, Regex := [] }

def fileReq : File := { Optional := false, Mode := none, Regex := [] }

def msgIO : Str := "io failure".toList

/-- An image whose only behaviour is a non-not-found open error at
`absent`. -/
def imgOpenErr : Image :=
  { configEnv := [], fs := [], openErrs := [(pathAbsent.drop 1, msgIO)] }

def pathSrv : Str := "/srv".toList

/-- A regular (non-directory) entry at `srv`. -/
def entSrvFile : Entry :=
  { name := pathSrv.drop 1, ty := FTy.file, mode := 0o644, size := 0, content := [] }

def imgSrvFile : Image := { configEnv := [], fs := [entSrvFile], openErrs := [] }

def dirSpec755 : Dir := { FilesOnly := false, Mode := some 0o755, Recursive := false }

def pathEtc : Str := "/etc".toList

/-- A directory entry at `etc` with mode 0o700. -/
def entEtcDir : Entry :=
  { name := pathEtc.drop 1, ty := FTy.dir, mode := 0o700, size := 0, content := [] }

def imgEtcDir : Image := { configEnv := [], fs := [entEtcDir], openErrs := [] }

def pathBig : Str := "/big".toList

/-- A file spec asking for both content and mode. -/
def fileBig : File := { Optional := false, Mode := some 0o755, Regex := [ 'a' ] }

/-- An entry whose header size is one byte over the regex ceiling, with a
mode that does not match `fileBig`'s wanted mode. -/
def entBig : Entry :=
  { name := pathBig.drop 1, ty := FTy.file, mode := 0o644,
    size := maxRegexFileSize + 1, content := [] }

def imgBig : Image := { configEnv := [], fs := [entBig], openErrs := [] }

/-- A file spec asking only for content. -/
def fileRe : File := { Optional := false, Mode := none, Regex := [ 'a' ] }

def pathExact : Str := "/exact".toList

/-- An entry whose header size is exactly the regex ceiling. -/
def entExact : Entry :=
  { name := pathExact.drop 1, ty := FTy.file, mode := 0o644,
    size := maxRegexFileSize, content := [ 97 ] }

def imgExact : Image := { configEnv := [], fs := [entExact], openErrs := [] }

def pathNull : Str := "/null".toList

/-- An entry whose first byte is a null byte. -/
def entNull : Entry :=
  { name := pathNull.drop 1, ty := FTy.file, mode := 0o644, size := 1,
    content := [ 0 ] }

def imgNull : Image := { configEnv := [], fs := [entNull], openErrs := [] }

def pathLate : Str := "/late".toList

/-- Content whose only null byte sits just past the first 8192 bytes. -/
def lateBytes : Bytes := List.replicate 8192 65 ++ [ 0 ]

/-- An entry whose only null byte sits just past the first 8192 bytes. -/
def entLate : Entry :=
  { name := pathLate.drop 1, ty := FTy.file, mode := 0o644, size := 8193,
    content := lateBytes }

def imgLate : Image := { configEnv := [], fs := [entLate], openErrs := [] }

def kA : Str := "A".toList

def v1 : Str := "1".toList

def kB : Str := "B".toList

def v2 : Str := "2".toList

def envCondA : EnvCondition := { Want := [(kA, v1)] }

def envCondB : EnvCondition := { Want := [(kB, v2)] }

def vA : Violation := Violation.envMismatch kA v1 []

def vB : Violation := Violation.envMismatch kB v2 []

def condsAB : List Condition := [Condition.env envCondA, Condition.env envCondB]

def kPATH : Str := "PATH".toList

def vDollarPATH : Str := "$PATH".toList

def envCondPath : EnvCondition := { Want := [(kPATH, vDollarPATH)] }

def envCondPathEmpty : EnvCondition := { Want := [(kPATH, [])] }

def imgEnvAB : Image :=
  { configEnv := [ "A=1".toList], fs := [], openErrs := [] }

def envA2 : Str := "A=2".toList

def nmLUA_PATH : Str := "LUA_PATH".toList

def nmLUA_CPATH : Str := "LUA_CPATH".toList

def pathUsr : Str := "/usr".toList

def entUsr : Entry :=
  { name := pathUsr.drop 1, ty := FTy.dir, mode := 0o755, size := 0, content := [] }

/-- A blocked-mode file outside any override. -/
def entBad : Entry :=
  { name := "usr/bad".toList, ty := FTy.file, mode := 0o777, size := 0, content := [] }

/-- A blocked-mode file under the override. -/
def entOvr : Entry :=
  { name := "usr/ovr/x".toList, ty := FTy.file, mode := 0o777, size := 0, content := [] }

def imgPerm : Image :=
  { configEnv := [], fs := [entUsr, entBad, entOvr], openErrs := [] }

def permSpec : Permission :=
  { Block := some 0o777, Override := [ "/usr/ovr".toList ] }

/-! Helper lemmas. -/

theorem joinChecks_cons_fst_none (os : List (Option (List Violation))) :
    joinChecks (none :: os) = none := by
  show (match (none : Option (List Violation)), joinChecks os with
        | some a, some b => some (a ++ b)
        | _, _ => none) = none
  cases joinChecks os <;> rfl

theorem joinChecks_cons_snd_none (o : Option (List Violation))
    (os : List (Option (List Violation))) (h : joinChecks os = none) :
    joinChecks (o :: os) = none := by
  show (match o, joinChecks os with
        | some a, some b => some (a ++ b)
        | _, _ => none) = none
  rw [h]
  cases o <;> rfl

theorem joinChecks_cons_somes (o : Option (List Violation))
    (os : List (Option (List Violation))) (l ls : List Violation)
    (h1 : o = some l) (h2 : joinChecks os = some ls) :
    joinChecks (o :: os) = some (l ++ ls) := by
  subst h1
  show (match (some l : Option (List Violation)), joinChecks os with
        | some a, some b => some (a ++ b)
        | _, _ => none) = some (l ++ ls)
  rw [h2]

theorem conditionsCheck_cons (m : Matcher) (c : Condition) (rest : List Condition)
    (i : Image) :
    Conditions.Check m (c :: rest) i =
      joinChecks (Condition.Check m c i :: rest.map (fun c => Condition.Check m c i)) :=
  rfl

theorem conditionsCheck_cons_some_inv (m : Matcher) (c : Condition)
    (rest : List Condition) (i : Image) (l : List Violation)
    (h : Conditions.Check m (c :: rest) i = some l) :
    ∃ a b, Condition.Check m c i = some a ∧ Conditions.Check m rest i = some b ∧
      l = a ++ b := by
  have h' : joinChecks (Condition.Check m c i ::
      rest.map (fun c => Condition.Check m c i)) = some l := h
  rcases ho : Condition.Check m c i with _ | a
  · rw [ho, joinChecks_cons_fst_none] at h'
    cases h'
  · rw [ho] at h'
    rcases hos : joinChecks (rest.map (fun c => Condition.Check m c i)) with _ | b
    · rw [joinChecks_cons_snd_none _ _ hos] at h'
      cases h'
    · rw [joinChecks_cons_somes (some a) _ a b rfl hos] at h'
      injection h' with h''
      exact ⟨a, b, rfl, hos, h''.symm⟩

theorem conditionsCheck_cons_somes (m : Matcher) (c : Condition)
    (rest : List Condition) (i : Image) (a b : List Violation)
    (h1 : Condition.Check m c i = some a) (h2 : Conditions.Check m rest i = some b) :
    Conditions.Check m (c :: rest) i = some (a ++ b) :=
  joinChecks_cons_somes _ _ a b h1 h2

/-- C1: `Conditions.Check` evaluates every condition's `Check` (when the run
completes, i.e. no condition panicked, every condition produced a result,
even if other conditions reported errors), joins all returned errors into
one combined error (the combined list holds exactly the violations of the
individual conditions), and returns nil if and only if no condition
reported any violation. -/
theorem C1_conditions_check_joins_all (m : Matcher) (cs : List Condition) (i : Image) :
    (Conditions.Check m cs i = some [] ↔ ∀ c ∈ cs, Condition.Check m c i = some []) ∧
    (∀ l, Conditions.Check m cs i = some l →
      (∀ c ∈ cs, ∃ lc, Condition.Check m c i = some lc ∧ ∀ v ∈ lc, v ∈ l) ∧
      (∀ v ∈ l, ∃ c ∈ cs, ∃ lc, Condition.Check m c i = some lc ∧ v ∈ lc)) := by
  induction cs with
  | nil =>
    constructor
    · exact ⟨fun _ => by simp, fun _ => rfl⟩
    · intro l hl
      have hl' : some ([] : List Violation) = some l := hl
      injection hl' with hl''
      subst hl''
      simp
  | cons c rest ih =>
    constructor
    · constructor
      · intro h
        rcases conditionsCheck_cons_some_inv m c rest i [] h with ⟨a, b, ha, hb, hab⟩
        have ha0 : a = [] := (List.append_eq_nil.mp hab.symm).1
        have hb0 : b = [] := (List.append_eq_nil.mp hab.symm).2
        intro c' hc'
        rcases List.mem_cons.mp hc' with rfl | hmem
        · rw [ha, ha0]
        · exact (ih.1.mp (by rw [hb, hb0])) c' hmem
      · intro hall
        have ha : Condition.Check m c i = some [] := hall c (List.mem_cons_self c rest)
        have hb : Conditions.Check m rest i = some [] :=
          ih.1.mpr (fun c' hc' => hall c' (List.mem_cons_of_mem c hc'))
        simpa using conditionsCheck_cons_somes m c rest i [] [] ha hb
    · intro l hl
      rcases conditionsCheck_cons_some_inv m c rest i l hl with ⟨a, b, ha, hb, hab⟩
      subst hab
      rcases ih.2 b hb with ⟨ihA, ihB⟩
      constructor
      · intro c' hc'
        rcases List.mem_cons.mp hc' with rfl | hmem
        · exact ⟨a, ha, fun v hv => List.mem_append.mpr (Or.inl hv)⟩
        · rcases ihA c' hmem with ⟨lc, hlc, hsub⟩
          exact ⟨lc, hlc, fun v hv => List.mem_append.mpr (Or.inr (hsub v hv))⟩
      · intro v hv
        rcases List.mem_append.mp hv with hva | hvb
        · exact ⟨c, List.mem_cons_self c rest, a, ha, hva⟩
        · rcases ihB v hvb with ⟨c', hc', lc, hlc, hvlc⟩
          exact ⟨c', List.mem_cons_of_mem c hc', lc, hlc, hvlc⟩

/-- C1 witness: two independently failing env conditions; the combined
result of `Conditions.Check` contains both distinct messages. -/
theorem C1_witness :
    (∀ c ∈ condsAB, ∃ lc, Condition.Check matchAll c imgEmpty = some lc ∧
      ∀ v ∈ lc, v ∈ [vA, vB]) ∧
    (∀ v ∈ [vA, vB], ∃ c ∈ condsAB, ∃ lc,
      Condition.Check matchAll c imgEmpty = some lc ∧ v ∈ lc) :=
  (C1_conditions_check_joins_all matchAll condsAB imgEmpty).2 [vA, vB] (by decide)

/-- C2 counterexample: a non-recursive dir entry whose named path is a
regular file (not a directory) records zero violations, contradicting the
claim that a non-directory entry records a violation for that path. -/
theorem C2_counterexample :
    statFS imgSrvFile (trimSlash pathSrv) = some entSrvFile ∧
    entSrvFile.ty ≠ FTy.dir ∧
    DirsCondition.checkOne imgSrvFile pathSrv dirSpec755 = some [] := by decide

/-- C2 (amended): for a non-recursive dir entry with a set mode, `Check`
stats exactly the named path; when the stat succeeds it records a
mode-mismatch violation exactly if the entry is a directory whose masked
mode differs from the masked spec mode (a non-directory entry records no
violation); when the stat fails the check dereferences the nil `FileInfo`
and does not return normally (modelled as `none`). -/
theorem C2_amended_nonrecursive (i : Image) (path : Str) (dir : Dir) (md : Nat)
    (hrec : dir.Recursive = false) (hmd : dir.Mode = some md) :
    (∀ fi, statFS i (trimSlash path) = some fi →
      DirsCondition.checkOne i path dir =
        some (if fi.ty = FTy.dir ∧ fi.mode &&& permissionMask ≠ md &&& permissionMask
          then [Violation.dirModeMismatch path (md &&& permissionMask)
            (fi.mode &&& permissionMask)]
          else [])) ∧
    (statFS i (trimSlash path) = none →
      DirsCondition.checkOne i path dir = none) := by
  constructor
  · intro fi hfi
    simp [DirsCondition.checkOne, hrec, hmd, hfi]
  · intro h
    simp [DirsCondition.checkOne, hrec, hmd, h]

/-- C2 witness: a directory entry with masked mode 0o700 against wanted
0o755 yields exactly the mode-mismatch violation. -/
theorem C2_witness :
    DirsCondition.checkOne imgEtcDir pathEtc dirSpec755 =
      some (if entEtcDir.ty = FTy.dir ∧
          entEtcDir.mode &&& permissionMask ≠ (0o755 : Nat) &&& permissionMask
        then [Violation.dirModeMismatch pathEtc ((0o755 : Nat) &&& permissionMask)
          (entEtcDir.mode &&& permissionMask)]
        else []) :=
  (C2_amended_nonrecursive imgEtcDir pathEtc dirSpec755 0o755 (by decide)
    (by decide)).1 entEtcDir (by decide)

/-- C3 counterexample: a file one byte over the regex ceiling with both a
regex and a set mode, where the masked modes differ: only the too-large
violation is recorded, no mode-mismatch violation, contradicting the claim
that the mode check is still performed. -/
theorem C3_counterexample :
    fileBig.Mode = some 0o755 ∧
    entBig.mode &&& permissionMask ≠ (0o755 : Nat) &&& permissionMask ∧
    FilesCondition.checkOne matchAll imgBig pathBig fileBig =
      [Violation.fileTooLarge pathBig maxRegexFileSize] := by decide

/-- C3 (amended): for a file entry with a non-empty regex whose header size
exceeds the 1 MiB ceiling, `Check` records exactly the too-large violation
for that entry and skips every remaining check of the entry, the mode check
included (the `continue` moves to the next entry). -/
theorem C3_amended_too_large (m : Matcher) (i : Image) (path : Str) (f : File)
    (e : Entry) (hr : f.Regex ≠ []) (ho : openFS i (trimSlash path) = OpenResult.ok e)
    (hs : e.size > maxRegexFileSize) :
    FilesCondition.checkOne m i path f = [Violation.fileTooLarge path maxRegexFileSize] := by
  simp [FilesCondition.checkOne, ho, hr, hs]

/-- C3 witness: the amended statement at the concrete oversized entry. -/
theorem C3_witness :
    FilesCondition.checkOne matchAll imgBig pathBig fileBig =
      [Violation.fileTooLarge pathBig maxRegexFileSize] :=
  C3_amended_too_large matchAll imgBig pathBig fileBig entBig (by decide)
    (by decide) (by decide)

/-- C4: for a wanted path absent from the image, `Check` records zero
violations when optional, and exactly the one not-found violation
otherwise; an open failure that is not a not-found error records the
opening violation instead. -/
theorem C4_file_absent (m : Matcher) (i : Image) (path : Str) (f : File) :
    (openFS i (trimSlash path) = OpenResult.notFound →
      FilesCondition.checkOne m i path f =
        if f.Optional then [] else [Violation.fileNotFound path]) ∧
    (∀ msg, openFS i (trimSlash path) = OpenResult.err msg →
      FilesCondition.checkOne m i path f = [Violation.fileOpenErr path msg]) := by
  constructor
  · intro h
    simp [FilesCondition.checkOne, h]
  · intro msg h
    simp [FilesCondition.checkOne, h]

/-- C4 witness: the three branches at concrete inputs: optional absent,
required absent, and a non-not-found open error. -/
theorem C4_witness :
    (FilesCondition.checkOne matchAll imgEmpty pathAbsent fileOpt =
      if fileOpt.Optional then [] else [Violation.fileNotFound pathAbsent]) ∧
    (FilesCondition.checkOne matchAll imgEmpty pathAbsent fileReq =
      if fileReq.Optional then [] else [Violation.fileNotFound pathAbsent]) ∧
    FilesCondition.checkOne matchAll imgOpenErr pathAbsent fileReq =
      [Violation.fileOpenErr pathAbsent msgIO] :=
  ⟨(C4_file_absent matchAll imgEmpty pathAbsent fileOpt).1 (by decide),
   (C4_file_absent matchAll imgEmpty pathAbsent fileReq).1 (by decide),
   (C4_file_absent matchAll imgOpenErr pathAbsent fileReq).2 msgIO (by decide)⟩

theorem fileTooLarge_not_mem_modeCheck (path : Str) (f : File) (e : Entry) (n : Nat) :
    Violation.fileTooLarge path n ∉ fileModeCheck path f e := by
  unfold fileModeCheck
  rcases f.Mode with _ | md
  · simp
  · split <;> simp

theorem fileBinary_not_mem_modeCheck (path : Str) (f : File) (e : Entry) :
    Violation.fileBinary path ∉ fileModeCheck path f e := by
  unfold fileModeCheck
  rcases f.Mode with _ | md
  · simp
  · split <;> simp

theorem fileRegexMismatch_not_mem_modeCheck (path : Str) (f : File) (e : Entry)
    (r : Str) (c : Bytes) :
    Violation.fileRegexMismatch path r c ∉ fileModeCheck path f e := by
  unfold fileModeCheck
  rcases f.Mode with _ | md
  · simp
  · split <;> simp

theorem checkOne_size_ok (m : Matcher) (i : Image) (path : Str) (f : File)
    (e : Entry) (hr : f.Regex ≠ []) (ho : openFS i (trimSlash path) = OpenResult.ok e)
    (hs : ¬ e.size > maxRegexFileSize) :
    FilesCondition.checkOne m i path f =
      if containsNull ((e.content.take maxRegexFileSize).take 8192) then
        [Violation.fileBinary path]
      else
        (if m f.Regex (e.content.take maxRegexFileSize) then []
         else [Violation.fileRegexMismatch path f.Regex
           (e.content.take maxRegexFileSize)])
        ++ fileModeCheck path f e := by
  simp [FilesCondition.checkOne, ho, hr, hs]

theorem checkOne_regex_branch (m : Matcher) (i : Image) (path : Str) (f : File)
    (e : Entry) (hr : f.Regex ≠ []) (ho : openFS i (trimSlash path) = OpenResult.ok e)
    (hs : ¬ e.size > maxRegexFileSize)
    (hnull : containsNull ((e.content.take maxRegexFileSize).take 8192) = false) :
    Violation.fileBinary path ∉ FilesCondition.checkOne m i path f ∧
    (Violation.fileRegexMismatch path f.Regex (e.content.take maxRegexFileSize) ∈
        FilesCondition.checkOne m i path f ↔
      m f.Regex (e.content.take maxRegexFileSize) = false) := by
  rw [checkOne_size_ok m i path f e hr ho hs, if_neg (by simp [hnull])]
  constructor
  · intro hmem
    rcases List.mem_append.mp hmem with h1 | h2
    · revert h1
      split <;> simp
    · exact fileBinary_not_mem_modeCheck path f e h2
  · by_cases hm : m f.Regex (e.content.take maxRegexFileSize) = true
    · rw [if_pos hm]
      constructor
      · intro hmem
        rcases List.mem_append.mp hmem with h1 | h2
        · cases h1
        · exact absurd h2 (fileRegexMismatch_not_mem_modeCheck path f e f.Regex _)
      · intro hfalse
        rw [hm] at hfalse
        cases hfalse
    · rw [if_neg hm]
      have hm' : m f.Regex (e.content.take maxRegexFileSize) = false :=
        Bool.not_eq_true _ ▸ hm
      constructor
      · intro _
        exact hm'
      · intro _
        exact List.mem_append.mpr (Or.inl (List.mem_singleton.mpr rfl))

/-- C5: with a non-empty regex, a file whose header size is exactly 1 MiB
is not rejected as too large and its read content is matched against the
regex, while a header size of 1 MiB plus one byte records exactly the
too-large violation regardless of the content (the statement holds for
every content and every matcher). -/
theorem C5_size_boundary (m : Matcher) (i : Image) (path : Str) (f : File)
    (e : Entry) (hr : f.Regex ≠ []) (ho : openFS i (trimSlash path) = OpenResult.ok e) :
    (e.size = maxRegexFileSize →
      (∀ n, Violation.fileTooLarge path n ∉ FilesCondition.checkOne m i path f) ∧
      (containsNull ((e.content.take maxRegexFileSize).take 8192) = false →
        (Violation.fileRegexMismatch path f.Regex (e.content.take maxRegexFileSize) ∈
            FilesCondition.checkOne m i path f ↔
          m f.Regex (e.content.take maxRegexFileSize) = false))) ∧
    (e.size = maxRegexFileSize + 1 →
      FilesCondition.checkOne m i path f =
        [Violation.fileTooLarge path maxRegexFileSize]) := by
  constructor
  · intro hsize
    have hng : ¬ e.size > maxRegexFileSize := by omega
    constructor
    · intro n
      rw [checkOne_size_ok m i path f e hr ho hng]
      split
      · simp
      · intro hmem
        rcases List.mem_append.mp hmem with h1 | h2
        · revert h1
          split <;> simp
        · exact fileTooLarge_not_mem_modeCheck path f e n h2
    · intro hnull
      exact (checkOne_regex_branch m i path f e hr ho hng hnull).2
  · intro hsize
    have hg : e.size > maxRegexFileSize := by omega
    simp [FilesCondition.checkOne, ho, hr, hg]

/-- C5 witness: a header size of exactly the ceiling is not too large and
the regex is consulted; one byte over yields exactly the too-large
violation. -/
theorem C5_witness :
    (Violation.fileTooLarge pathExact maxRegexFileSize ∉
      FilesCondition.checkOne matchAll imgExact pathExact fileRe) ∧
    (Violation.fileRegexMismatch pathExact fileRe.Regex
        (entExact.content.take maxRegexFileSize) ∈
          FilesCondition.checkOne matchAll imgExact pathExact fileRe ↔
      matchAll fileRe.Regex (entExact.content.take maxRegexFileSize) = false) ∧
    FilesCondition.checkOne matchAll imgBig pathBig fileRe =
      [Violation.fileTooLarge pathBig maxRegexFileSize] :=
  ⟨((C5_size_boundary matchAll imgExact pathExact fileRe entExact (by decide)
      (by decide)).1 (by decide)).1 maxRegexFileSize,
   ((C5_size_boundary matchAll imgExact pathExact fileRe entExact (by decide)
      (by decide)).1 (by decide)).2 (by decide),
   (C5_size_boundary matchAll imgBig pathBig fileRe entBig (by decide)
      (by decide)).2 (by decide)⟩

/-- C6: with a non-empty regex and a size within the ceiling, a null byte
within the first 8192 bytes of the read content makes the entry record
exactly the binary-data violation (so the regex is never consulted and the
matcher is irrelevant), while content whose first 8192 bytes are null-free
records no binary-data violation and has its content matched against the
regex. -/
theorem C6_binary_detection (m : Matcher) (i : Image) (path : Str) (f : File)
    (e : Entry) (hr : f.Regex ≠ []) (ho : openFS i (trimSlash path) = OpenResult.ok e)
    (hs : ¬ e.size > maxRegexFileSize) :
    (containsNull ((e.content.take maxRegexFileSize).take 8192) = true →
      FilesCondition.checkOne m i path f = [Violation.fileBinary path]) ∧
    (containsNull ((e.content.take maxRegexFileSize).take 8192) = false →
      Violation.fileBinary path ∉ FilesCondition.checkOne m i path f ∧
      (Violation.fileRegexMismatch path f.Regex (e.content.take maxRegexFileSize) ∈
          FilesCondition.checkOne m i path f ↔
        m f.Regex (e.content.take maxRegexFileSize) = false)) := by
  constructor
  · intro hnull
    rw [checkOne_size_ok m i path f e hr ho hs, if_pos hnull]
  · intro hnull
    exact checkOne_regex_branch m i path f e hr ho hs hnull

theorem containsNull_replicate65 (n : Nat) :
    containsNull (List.replicate n 65) = false := by
  induction n with
  | zero => rfl
  | succ k ih =>
    rw [List.replicate_succ]
    simp [containsNull] at ih ⊢

theorem lateBytes_length : lateBytes.length = 8193 := by
  simp only [lateBytes, List.length_append, List.length_replicate, List.length_singleton]

theorem lateBytes_take_max : lateBytes.take maxRegexFileSize = lateBytes :=
  List.take_of_length_le (by rw [lateBytes_length]; norm_num [maxRegexFileSize])

theorem lateBytes_take_8192 : lateBytes.take 8192 = List.replicate 8192 65 := by
  simp only [lateBytes,
    List.take_append_of_le_length
      (show (8192 : Nat) ≤ (List.replicate 8192 (65 : Nat)).length by
        simp only [List.length_replicate, le_refl]),
    List.take_replicate, Nat.min_self]

theorem entLate_nullcheck :
    containsNull ((entLate.content.take maxRegexFileSize).take 8192) = false := by
  show containsNull ((lateBytes.take maxRegexFileSize).take 8192) = false
  simp only [lateBytes_take_max, lateBytes_take_8192]
  exact containsNull_replicate65 8192

/-- C6 witness: a leading null byte yields exactly the binary-data
violation; a null byte only at position 8192 (past the first 8 KiB) does
not. -/
theorem C6_witness :
    FilesCondition.checkOne matchAll imgNull pathNull fileRe =
      [Violation.fileBinary pathNull] ∧
    Violation.fileBinary pathLate ∉
      FilesCondition.checkOne matchAll imgLate pathLate fileRe :=
  ⟨(C6_binary_detection matchAll imgNull pathNull fileRe entNull (by decide)
      (by decide) (by decide)).1 (by decide),
   ((C6_binary_detection matchAll imgLate pathLate fileRe entLate (by decide) rfl
      (by decide)).2 entLate_nullcheck).1⟩

theorem mem_envCheck (e : EnvCondition) (i : Image) (v : Violation) :
    v ∈ EnvCondition.Check e i ↔
      ∃ kv ∈ e.Want,
        (v ∈ (if splitEnvs i.configEnv kv.1 ≠ kv.2 then
          [Violation.envMismatch kv.1 kv.2 (splitEnvs i.configEnv kv.1)] else []) ∨
         v ∈ (match verifyEnv kv.1 with
              | some sep =>
                (splitChar sep kv.2).filterMap (fun p =>
                  if startsSlash p = false ∨ p = '$' :: kv.1 then
                    some (Violation.envPathAudit kv.1 kv.2 p)
                  else none)
              | none => [])) := by
  unfold EnvCondition.Check
  rw [List.mem_flatten]
  constructor
  · rintro ⟨l, hl, hv⟩
    rcases List.mem_map.mp hl with ⟨kv, hkv, rfl⟩
    exact ⟨kv, hkv, List.mem_append.mp hv⟩
  · rintro ⟨kv, hkv, hv⟩
    exact ⟨_, List.mem_map.mpr ⟨kv, hkv, rfl⟩, List.mem_append.mpr hv⟩

theorem envMismatch_mem_iff (e : EnvCondition) (i : Image) (k v g : Str) :
    Violation.envMismatch k v g ∈ EnvCondition.Check e i ↔
      ((k, v) ∈ e.Want ∧ g = splitEnvs i.configEnv k ∧ g ≠ v) := by
  rw [mem_envCheck]
  constructor
  · rintro ⟨kv, hkv, hmis | haud⟩
    · revert hmis
      by_cases hc : splitEnvs i.configEnv kv.1 ≠ kv.2
      · rw [if_pos hc]
        intro hmem
        have heq := List.mem_singleton.mp hmem
        injection heq with h1 h2 h3
        subst h1
        subst h2
        subst h3
        exact ⟨hkv, rfl, hc⟩
      · rw [if_neg hc]
        intro hmem
        cases hmem
    · revert haud
      rcases hsep : verifyEnv kv.1 with _ | sep
      · intro h
        cases h
      · intro h
        rcases List.mem_filterMap.mp h with ⟨p, _, hfp⟩
        revert hfp
        split
        · intro hfp
          injection hfp with hbad
          exact Violation.noConfusion hbad
        · intro hfp
          cases hfp
  · rintro ⟨hkv, rfl, hne⟩
    refine ⟨(k, v), hkv, Or.inl ?_⟩
    simp [hne]

theorem envPathAudit_mem_iff (e : EnvCondition) (i : Image) (k v p : Str) :
    Violation.envPathAudit k v p ∈ EnvCondition.Check e i ↔
      ((k, v) ∈ e.Want ∧ ∃ sep, verifyEnv k = some sep ∧ p ∈ splitChar sep v ∧
        (startsSlash p = false ∨ p = '$' :: k)) := by
  rw [mem_envCheck]
  constructor
  · rintro ⟨kv, hkv, hmis | haud⟩
    · revert hmis
      split
      · intro hmem
        have heq := List.mem_singleton.mp hmem
        exact Violation.noConfusion heq
      · intro hmem
        cases hmem
    · revert haud
      rcases hsep : verifyEnv kv.1 with _ | sep
      · intro h
        cases h
      · intro h
        rcases List.mem_filterMap.mp h with ⟨q, hq, hfq⟩
        revert hfq
        by_cases hc : startsSlash q = false ∨ q = '$' :: kv.1
        · rw [if_pos hc]
          intro hfq
          injection hfq with heq
          injection heq with h1 h2 h3
          subst h1
          subst h2
          subst h3
          exact ⟨hkv, sep, hsep, hq, hc⟩
        · rw [if_neg hc]
          intro hfq
          cases hfq
  · rintro ⟨hkv, sep, hsep, hp, hc⟩
    refine ⟨(k, v), hkv, Or.inr ?_⟩
    simp only [hsep]
    exact List.mem_filterMap.mpr ⟨p, hp, by rw [if_pos hc]⟩

theorem foldl_env_id (k : Str) (envs : List Str) (acc : Str)
    (h : ∀ s ∈ envs, (cutEq s).1 ≠ k) :
    envs.foldl (fun a s => if (cutEq s).1 = k then (cutEq s).2 else a) acc = acc := by
  induction envs generalizing acc with
  | nil => rfl
  | cons s rest ih =>
    have hs : (cutEq s).1 ≠ k := h s (List.mem_cons_self s rest)
    rw [List.foldl_cons, if_neg hs]
    exact ih acc (fun t ht => h t (List.mem_cons_of_mem s ht))

/-- C9: the config env is parsed into a name-to-value mapping where the last
occurrence of a duplicated name wins; an absent name compares as the empty
string; and the mismatch violation for a wanted pair is recorded exactly
when the actual value differs from the wanted one. -/
theorem C9_env_mapping (e : EnvCondition) (i : Image) (k v g : Str) :
    (∀ xs s, splitEnvs (xs ++ [s]) k =
      if (cutEq s).1 = k then (cutEq s).2 else splitEnvs xs k) ∧
    ((∀ s ∈ i.configEnv, (cutEq s).1 ≠ k) → splitEnvs i.configEnv k = []) ∧
    (Violation.envMismatch k v g ∈ EnvCondition.Check e i ↔
      ((k, v) ∈ e.Want ∧ g = splitEnvs i.configEnv k ∧ g ≠ v)) := by
  refine ⟨?_, ?_, envMismatch_mem_iff e i k v g⟩
  · intro xs s
    unfold splitEnvs
    rw [List.foldl_append]
    rfl
  · intro h
    exact foldl_env_id k i.configEnv [] h

/-- C9 witness: a name absent from the env maps to the empty string; a
duplicated name takes the last value; the mismatch violation for a concrete
failing pair is characterized. -/
theorem C9_witness :
    splitEnvs imgEnvAB.configEnv kB = [] ∧
    (splitEnvs (imgEnvAB.configEnv ++ [envA2]) kA =
      if (cutEq envA2).1 = kA then (cutEq envA2).2 else splitEnvs imgEnvAB.configEnv kA) ∧
    (Violation.envMismatch kA v1 [] ∈ EnvCondition.Check envCondA imgEmpty ↔
      ((kA, v1) ∈ envCondA.Want ∧ [] = splitEnvs imgEmpty.configEnv kA ∧ [] ≠ v1)) :=
  ⟨(C9_env_mapping envCondA imgEnvAB kB v1 []).2.1 (by decide),
   (C9_env_mapping envCondA imgEnvAB kA v1 []).1 imgEnvAB.configEnv envA2,
   (C9_env_mapping envCondA imgEmpty kA v1 []).2.2⟩

/-- C7: the separator table gives the LUA variables a semicolon and PATH a
colon; for a wanted pair whose name is in the table, a path-audit violation
for a component is recorded exactly when the component, split off the
wanted value by that variable's own separator, does not start with a slash
or is the literal dollar reference to the variable, independently of
whether the env value matched; and both the mismatch and the audit
violation can fire for the same pair. -/
theorem C7_env_path_audit (e : EnvCondition) (i : Image) (k v p : Str) (sep : Char) :
    (verifyEnv nmLUA_PATH = some ';' ∧ verifyEnv nmLUA_CPATH = some ';' ∧
      verifyEnv kPATH = some ':') ∧
    ((k, v) ∈ e.Want → verifyEnv k = some sep →
      (Violation.envPathAudit k v p ∈ EnvCondition.Check e i ↔
        (p ∈ splitChar sep v ∧ (startsSlash p = false ∨ p = '$' :: k)))) ∧
    ((k, v) ∈ e.Want → verifyEnv k = some sep →
      splitEnvs i.configEnv k ≠ v → p ∈ splitChar sep v →
      (startsSlash p = false ∨ p = '$' :: k) →
      Violation.envMismatch k v (splitEnvs i.configEnv k) ∈ EnvCondition.Check e i ∧
      Violation.envPathAudit k v p ∈ EnvCondition.Check e i) := by
  refine ⟨⟨by decide, by decide, by decide⟩, ?_, ?_⟩
  · intro hkv hsep
    rw [envPathAudit_mem_iff]
    constructor
    · rintro ⟨_, sep', hsep', hp, hc⟩
      rw [hsep] at hsep'
      injection hsep' with h'
      subst h'
      exact ⟨hp, hc⟩
    · rintro ⟨hp, hc⟩
      exact ⟨hkv, sep, hsep, hp, hc⟩
  · intro hkv hsep hne hp hc
    exact ⟨(envMismatch_mem_iff e i k v _).mpr ⟨hkv, rfl, hne⟩,
      (envPathAudit_mem_iff e i k v p).mpr ⟨hkv, sep, hsep, hp, hc⟩⟩

/-- C7 witness: the pair `PATH` wanting the literal `$PATH` records both the
mismatch violation and the literal-dollar audit violation at once. -/
theorem C7_witness :
    Violation.envMismatch kPATH vDollarPATH (splitEnvs imgEmpty.configEnv kPATH) ∈
      EnvCondition.Check envCondPath imgEmpty ∧
    Violation.envPathAudit kPATH vDollarPATH vDollarPATH ∈
      EnvCondition.Check envCondPath imgEmpty :=
  (C7_env_path_audit envCondPath imgEmpty kPATH vDollarPATH vDollarPATH ':').2.2
    (by decide) (by decide) (by decide) (by decide) (by decide)

/-- C10: a wanted pair with the empty string as value and a name in the
separator table always records a path-audit violation, because splitting
the empty value yields one empty component, which does not start with a
slash. -/
theorem C10_empty_value_audit (e : EnvCondition) (i : Image) (k : Str) (sep : Char)
    (hw : (k, []) ∈ e.Want) (hv : verifyEnv k = some sep) :
    Violation.envPathAudit k [] [] ∈ EnvCondition.Check e i :=
  (envPathAudit_mem_iff e i k [] []).mpr
    ⟨hw, sep, hv, by simp [splitChar], Or.inl rfl⟩

/-- C10 witness: wanting `PATH` empty records the audit violation for the
empty component. -/
theorem C10_witness :
    Violation.envPathAudit kPATH [] [] ∈
      EnvCondition.Check envCondPathEmpty imgEmpty :=
  C10_empty_value_audit envCondPathEmpty imgEmpty kPATH ':' (by decide) (by decide)

theorem walkPerm_eq (b : Nat) (ovr : List Str) (es : List Entry) :
    walkPerm (some b) ovr es = some (es.filterMap (fun e =>
      if e.ty = FTy.symlink then none
      else if e.mode &&& permissionMask = b &&& permissionMask ∧
          hasOverride e.name ovr = false then
        some (Violation.permBlocked e.name (b &&& permissionMask)
          (e.mode &&& permissionMask))
      else none)) := by
  induction es with
  | nil => rfl
  | cons e rest ih =>
    by_cases hsym : e.ty = FTy.symlink
    · simp only [walkPerm, List.filterMap_cons, if_pos hsym]
      exact ih
    · by_cases hc : e.mode &&& permissionMask = b &&& permissionMask ∧
          hasOverride e.name ovr = false
      · simp only [walkPerm, List.filterMap_cons, if_neg hsym, if_pos hc, ih,
          Option.map_some]
        rfl
      · simp only [walkPerm, List.filterMap_cons, if_neg hsym, if_neg hc, ih,
          Option.map_some]
        rfl

/-- C8: the walk of a permission entry visits the subtree rooted at the
entry's path, skips symlinks, and records a violation for a visited entry
exactly when its masked mode equals the masked block mode and its path is
covered by no override, where coverage by an override is equality with the
slash-trimmed override or having it followed by a slash as a prefix
(segment-boundary matching, not substring matching). -/
theorem C8_permission_override (i : Image) (path : Str) (perm : Permission) (b : Nat) :
    (∀ (p : Str) (os : List Str),
      hasOverride p os = true ↔
        ∃ o ∈ os, p = trimSlash o ∨ (trimSlash o ++ [ '/' ]).isPrefixOf p = true) ∧
    (perm.Block = some b → rootExists i (trimSlash path) = true →
      ∃ l, PermissionsCondition.checkOne i path perm = some l ∧
        ∀ v, v ∈ l ↔ ∃ e ∈ subtreeEntries i (trimSlash path),
          e.ty ≠ FTy.symlink ∧
          e.mode &&& permissionMask = b &&& permissionMask ∧
          hasOverride e.name perm.Override = false ∧
          v = Violation.permBlocked e.name (b &&& permissionMask)
            (e.mode &&& permissionMask)) := by
  constructor
  · intro p os
    simp only [hasOverride, List.any_eq_true]
    constructor
    · rintro ⟨o, ho, hpred⟩
      rw [Bool.and_eq_true, Bool.or_eq_true] at hpred
      rcases hpred with ⟨_, h2 | h2⟩
      · exact ⟨o, ho, Or.inl (beq_iff_eq.mp h2)⟩
      · exact ⟨o, ho, Or.inr h2⟩
    · rintro ⟨o, ho, hco⟩
      refine ⟨o, ho, ?_⟩
      rw [Bool.and_eq_true, Bool.or_eq_true]
      rcases hco with rfl | hpre
      · exact ⟨List.isPrefixOf_iff_prefix.mpr (List.prefix_refl _),
          Or.inl (beq_iff_eq.mpr rfl)⟩
      · refine ⟨?_, Or.inr hpre⟩
        exact List.isPrefixOf_iff_prefix.mpr
          ((List.prefix_append _ _).trans (List.isPrefixOf_iff_prefix.mp hpre))
  · intro hb hroot
    simp only [PermissionsCondition.checkOne, hroot, if_true, hb]
    rw [walkPerm_eq]
    refine ⟨_, rfl, ?_⟩
    intro v
    rw [List.mem_filterMap]
    constructor
    · rintro ⟨e, he, hfe⟩
      revert hfe
      by_cases hsym : e.ty = FTy.symlink
      · rw [if_pos hsym]
        intro h
        cases h
      · rw [if_neg hsym]
        by_cases hc : e.mode &&& permissionMask = b &&& permissionMask ∧
            hasOverride e.name perm.Override = false
        · rw [if_pos hc]
          intro h
          injection h with h'
          exact ⟨e, he, hsym, hc.1, hc.2, h'.symm⟩
        · rw [if_neg hc]
          intro h
          cases h
    · rintro ⟨e, he, hsym, hc1, hc2, rfl⟩
      refine ⟨e, he, ?_⟩
      rw [if_neg hsym, if_pos ⟨hc1, hc2⟩]

/-- C8 witness: a subtree with one blocked-mode file outside the override
and one inside it, at concrete inputs; the characterization is obtained
with both hypotheses discharged. -/
theorem C8_witness :
    ∃ l, PermissionsCondition.checkOne imgPerm pathUsr permSpec = some l ∧
      ∀ v, v ∈ l ↔ ∃ e ∈ subtreeEntries imgPerm (trimSlash pathUsr),
        e.ty ≠ FTy.symlink ∧
        e.mode &&& permissionMask = (0o777 : Nat) &&& permissionMask ∧
        hasOverride e.name permSpec.Override = false ∧
        v = Violation.permBlocked e.name ((0o777 : Nat) &&& permissionMask)
          (e.mode &&& permissionMask) :=
  (C8_permission_override imgPerm pathUsr permSpec 0o777).2 (by decide) (by decide)

end OCIStructure
